import Mathlib

/-!
Shallow embedding of `src/bot/src/check-ata.js`.

The script is a single async function `checkATA` that loops over a
hard-coded list of base-58 address strings.  For position `i` it first
constructs `new PublicKey(ATA_ADDRESSES[i])` outside the `try` block, then
inside the `try` block awaits `connection.getAccountInfo(ata)` and, when an
account is present, `getAccount(connection, ata)`; the `catch` handler
prints an error line, and every iteration ends with a blank separator
line.  The top level runs `checkATA().catch(console.error)`.

The `PublicKey` parser and the remote ledger are modelled together as an
oracle (`Ledger`): each fallible external operation either returns a value
or throws, a throw carrying its `error.message` string as `Except.error`.
One run is observed as a linear trace of items: console output lines
interleaved with the RPC queries in the order they are issued, which is
faithful to the single-threaded `await`-sequenced loop of the source.
-/

/-- The record returned by a successful `getAccount` call: `mint` and
`owner` in their rendered (`.toString()`) form and the unsigned
arbitrary-precision `amount`. -/
structure TokenAccountRecord where
  mint : String
  owner : String
  amount : Nat
  deriving DecidableEq, Repr

/-- Oracle for the three fallible external operations of the script:
`parseKey` is `new PublicKey(s)` (returning the canonical `toString()`
form of the key), `getAccountInfo` reports whether an account is present
at the address, and `getAccount` decodes the token account.  An
`Except.error msg` models a throw whose `error.message` is `msg`. -/
structure Ledger where
  parseKey : String → Except String String
  getAccountInfo : String → Except String Bool
  getAccount : String → Except String TokenAccountRecord

/-- An RPC query issued for the identifier at 0-based position `i`:
`info i` is the `connection.getAccountInfo` call and `decode i` is the
`getAccount` call. -/
inductive Event where
  | info (i : Nat)
  | decode (i : Nat)
  deriving DecidableEq, Repr

/-- One observable action of a run: a `console.log` line or an issued RPC
query. -/
inductive Item where
  | out (line : String)
  | query (e : Event)
  deriving DecidableEq, Repr

/-- The hard-coded `ATA_ADDRESSES` list of the script. -/
def ATA_ADDRESSES : List String :=
  ["ASkpsRKwGKbUmmMrdknqnHVrmxsU8Ws6qeX5iE6AUERK",
   "73weDmPbP1pjZyshM47xiUV6pSadjoZPEtHeczAmNE7P",
   "HkuaPeSMog2jbGMYm7vjPFSaheM69PS1VXoioTp25sxS"]

/-- The banner printed before the loop starts. -/
def headerLine : String := "🔍 Проверка Associated Token Accounts..."

/-- Literal prefix of the mint detail line. -/
def mintTag : String := "   Mint: "

/-- Literal prefix of the balance detail line. -/
def balanceTag : String := "   Balance: "

/-- Literal prefix of the owner detail line. -/
def ownerTag : String := "   Owner: "

/-- The status line of the found branch. -/
def foundStatusLine (i : Nat) (ata : String) : String :=
  "✅ ATA " ++ (toString (i + 1) ++ (": " ++ ata))

/-- The four lines printed when the account is present and decoding
succeeds: status, mint, balance, owner.  The balance line renders the
decoded amount itself in decimal, exactly as `tokenAccount.amount.toString()`
does for a bigint. -/
def foundLines (i : Nat) (ata : String) (r : TokenAccountRecord) : List String :=
  [foundStatusLine i ata,
   mintTag ++ r.mint,
   balanceTag ++ toString r.amount,
   ownerTag ++ r.owner]

/-- The line printed when no account is present at the address. -/
def notFoundLine (i : Nat) (ata : String) : String :=
  "❌ ATA " ++ (toString (i + 1) ++ (": " ++ (ata ++ " - не найден")))

/-- The line printed by the per-identifier catch handler. -/
def errorLine (i : Nat) (ata : String) (msg : String) : String :=
  "⚠️ ATA " ++ (toString (i + 1) ++ (": " ++ (ata ++ (" - ошибка: " ++ msg))))

/-- Per-identifier outcome, as the spec's InspectionResult. -/
inductive InspectionResult where
  | found (r : TokenAccountRecord)
  | notFound
  | error (msg : String)
  deriving DecidableEq, Repr

/-- Outcome of the try block of one loop iteration for a parsed address:
a throw of either query is caught and becomes an Error outcome. -/
def resultOf (L : Ledger) (ata : String) : InspectionResult :=
  match L.getAccountInfo ata with
  | Except.ok true =>
    match L.getAccount ata with
    | Except.ok r => InspectionResult.found r
    | Except.error e => InspectionResult.error e
  | Except.ok false => InspectionResult.notFound
  | Except.error e => InspectionResult.error e

/-- The console lines rendered for one outcome at position `i`. -/
def renderResult (i : Nat) (ata : String) : InspectionResult → List String
  | InspectionResult.found r => foundLines i ata r
  | InspectionResult.notFound => [notFoundLine i ata]
  | InspectionResult.error e => [errorLine i ata e]

/-- The loop body for position `i` once `new PublicKey` succeeded with
`ata`: the try block issues the existence query; when an account is
present it issues the decode query; a throw of either query is caught by
the catch handler, which prints the error line; finally the blank
separator is printed. -/
def loopBody (L : Ledger) (i : Nat) (ata : String) : List Item :=
  (Item.query (Event.info i) ::
    match L.getAccountInfo ata with
    | Except.ok true =>
      Item.query (Event.decode i) ::
        (match L.getAccount ata with
         | Except.ok r => (foundLines i ata r).map Item.out
         | Except.error e => [Item.out (errorLine i ata e)])
    | Except.ok false => [Item.out (notFoundLine i ata)]
    | Except.error e => [Item.out (errorLine i ata e)]) ++
  [Item.out ""]

/-- The for-loop of `checkATA` from position `i` over the remaining
address strings.  `new PublicKey` is evaluated outside the try block, so
when `parseKey` throws the rejection escapes the loop: the run ends with
`Except.error` and no further item is produced. -/
def runFrom (L : Ledger) (i : Nat) : List String → List Item × Except String Unit
  | [] => ([], Except.ok ())
  | a :: rest =>
    match L.parseKey a with
    | Except.error e => ([], Except.error e)
    | Except.ok ata =>
      let t := runFrom L (i + 1) rest
      (loopBody L i ata ++ t.1, t.2)

/-- The whole async function `checkATA` applied to an address list:
banner first, then the loop from position 0. -/
def checkATA (L : Ledger) (addrs : List String) : List Item × Except String Unit :=
  let t := runFrom L 0 addrs
  (Item.out headerLine :: t.1, t.2)

/-- Console output lines of a trace. -/
def stdoutOf (tr : List Item) : List String :=
  tr.filterMap fun it =>
    match it with
    | Item.out s => some s
    | Item.query _ => none

/-- RPC queries of a trace, in issue order. -/
def eventsOf (tr : List Item) : List Event :=
  tr.filterMap fun it =>
    match it with
    | Item.out _ => none
    | Item.query e => some e

/-- Observable outcome of one process run. -/
structure RunOutcome where
  stdout : List String
  stderr : List String
  exitCode : Nat
  deriving DecidableEq, Repr

/-- Top level `checkATA().catch(console.error)` under Node semantics: a
rejection of the `checkATA()` promise is passed to `console.error`, which
prints the value on stderr; the rejection is thereby handled, so the
process exits with code 0 in every run. -/
def runProcess (L : Ledger) (addrs : List String) : RunOutcome :=
  match checkATA L addrs with
  | (tr, Except.ok _) => ⟨stdoutOf tr, [], 0⟩
  | (tr, Except.error e) => ⟨stdoutOf tr, [e], 0⟩

/-- Whether line `l` begins with the tag `tag`. -/
def hasTag (tag l : String) : Bool := tag.data.isPrefixOf l.data

/-- The string `sub` occurs verbatim inside `l`. -/
def containsStr (l sub : String) : Prop :=
  ∃ pre post : String, l = pre ++ (sub ++ post)

/-- The 0-based identifier position an RPC query belongs to. -/
def Event.idx : Event → Nat
  | Event.info i => i
  | Event.decode i => i

/-- Whether the loop iteration for a parsed address reaches the decode
query: exactly when the existence query returns and reports the account
present. -/
def decodeIssued (L : Ledger) (ata : String) : Bool :=
  match L.getAccountInfo ata with
  | Except.ok true => true
  | _ => false

/-- Concatenated loop-body traces for the parsed addresses `parsed`,
positions numbered from `i`. -/
def segs (L : Ledger) (i : Nat) (parsed : List String) : List Item :=
  ((List.enumFrom i parsed).map fun jp => loopBody L jp.1 jp.2).flatten

theorem hasTag_false_of_take_ne (tag a s : String) (n : Nat)
    (hn₁ : n ≤ tag.data.length) (hn₂ : n ≤ a.data.length)
    (hne : a.data.take n ≠ tag.data.take n) :
    hasTag tag (a ++ s) = false := by
  have h : ¬ tag.data <+: (a ++ s).data := by
    rw [String.data_append, List.prefix_iff_eq_take]
    intro h
    apply hne
    rw [h, List.take_take, Nat.min_eq_left hn₁, List.take_append_of_le_length hn₂]
  simp only [hasTag]
  rw [← Bool.not_eq_true]
  rw [ List.isPrefixOf_iff_prefix]
  exact h

theorem hasTag_self_append (tag s : String) : hasTag tag (tag ++ s) = true := by
  simp only [hasTag, String.data_append]
  rw [ List.isPrefixOf_iff_prefix]
  exact List.prefix_append tag.data s.data

theorem append_ne_empty_left (a s : String) (h : a.data ≠ []) : a ++ s ≠ "" := by
  intro he
  apply h
  have hd := congrArg String.data he
  rw [String.data_append] at hd
  exact (List.append_eq_nil.mp hd).1

theorem stdoutOf_append (t₁ t₂ : List Item) :
    stdoutOf (t₁ ++ t₂) = stdoutOf t₁ ++ stdoutOf t₂ :=
  List.filterMap_append t₁ t₂ _

theorem eventsOf_append (t₁ t₂ : List Item) :
    eventsOf (t₁ ++ t₂) = eventsOf t₁ ++ eventsOf t₂ :=
  List.filterMap_append t₁ t₂ _

theorem stdoutOf_map_out (ls : List String) : stdoutOf (ls.map Item.out) = ls := by
  induction ls with
  | nil => rfl
  | cons a as ih =>
    simp only [List.map_cons, stdoutOf, List.filterMap_cons] at ih ⊢
    rw [ih]

theorem stdoutOf_loopBody (L : Ledger) (i : Nat) (ata : String) :
    stdoutOf (loopBody L i ata) = renderResult i ata (resultOf L ata) ++ [""] := by
  rcases h : L.getAccountInfo ata with e | b
  · simp [loopBody, resultOf, renderResult, stdoutOf, h]
  · cases b
    · simp [loopBody, resultOf, renderResult, stdoutOf, h]
    · rcases h2 : L.getAccount ata with e | r
      · simp [loopBody, resultOf, renderResult, stdoutOf, h, h2]
      · have hm := stdoutOf_map_out (foundLines i ata r)
        simp [loopBody, resultOf, renderResult, stdoutOf, h, h2] at hm ⊢
        simpa using hm

theorem eventsOf_loopBody (L : Ledger) (i : Nat) (ata : String) :
    eventsOf (loopBody L i ata) =
      if decodeIssued L ata then [Event.info i, Event.decode i] else [Event.info i] := by
  have hmap : ∀ ls : List String, eventsOf (ls.map Item.out) = [] := by
    intro ls
    induction ls with
    | nil => rfl
    | cons a as ih =>
      simp only [List.map_cons, eventsOf, List.filterMap_cons] at ih ⊢
      exact ih
  rcases h : L.getAccountInfo ata with e | b
  · simp [loopBody, decodeIssued, eventsOf, h]
  · cases b
    · simp [loopBody, decodeIssued, eventsOf, h]
    · rcases h2 : L.getAccount ata with e | r
      · simp [loopBody, decodeIssued, eventsOf, h, h2]
      · have hm := hmap (foundLines i ata r)
        simp only [eventsOf] at hm
        simp [loopBody, decodeIssued, eventsOf, h, h2, hm]

theorem segs_cons (L : Ledger) (i : Nat) (p : String) (ps : List String) :
    segs L i (p :: ps) = loopBody L i p ++ segs L (i + 1) ps := by
  simp [segs, List.enumFrom_cons]

theorem runFrom_append (L : Ledger) (parse : String → String) (pre : List String) :
    ∀ (i : Nat) (rest : List String),
      (∀ a ∈ pre, L.parseKey a = Except.ok (parse a)) →
      runFrom L i (pre ++ rest) =
        (segs L i (pre.map parse) ++ (runFrom L (i + pre.length) rest).1,
         (runFrom L (i + pre.length) rest).2) := by
  induction pre with
  | nil =>
    intro i rest _
    simp [segs]
  | cons a as ih =>
    intro i rest hp
    have ha := hp a (List.mem_cons_self a as)
    have hih := ih (i + 1) rest fun x hx => hp x (List.mem_cons_of_mem a hx)
    have hlen : i + (a :: as).length = i + 1 + as.length := by
      simp only [List.length_cons]
      omega
    simp only [List.cons_append, runFrom, List.append_eq, ha]
    rw [hih, hlen]
    simp [segs_cons, List.append_assoc]

theorem runFrom_parsed (L : Ledger) (parse : String → String) (addrs : List String) (i : Nat)
    (hp : ∀ a ∈ addrs, L.parseKey a = Except.ok (parse a)) :
    runFrom L i addrs = (segs L i (addrs.map parse), Except.ok ()) := by
  have h := runFrom_append L parse addrs i [] hp
  simpa [runFrom] using h

theorem stdoutOf_segs (L : Ledger) (parsed : List String) :
    ∀ i : Nat,
      stdoutOf (segs L i parsed) =
        ((List.enumFrom i parsed).map
          fun jp => renderResult jp.1 jp.2 (resultOf L jp.2) ++ [""]).flatten := by
  induction parsed with
  | nil => intro i; rfl
  | cons p ps ih =>
    intro i
    rw [segs_cons, stdoutOf_append, stdoutOf_loopBody, ih (i + 1)]
    simp [List.enumFrom_cons, List.append_assoc]

theorem stdoutOf_cons_out (s : String) (t : List Item) :
    stdoutOf (Item.out s :: t) = s :: stdoutOf t := by
  simp [stdoutOf, List.filterMap_cons]

theorem eventsOf_cons_out (s : String) (t : List Item) :
    eventsOf (Item.out s :: t) = eventsOf t := by
  simp [eventsOf, List.filterMap_cons]

theorem eventsOf_loopBody_idx (L : Ledger) (i : Nat) (ata : String) :
    ∀ e ∈ eventsOf (loopBody L i ata), Event.idx e = i := by
  intro e he
  rw [eventsOf_loopBody] at he
  cases hd : decodeIssued L ata <;> rw [hd] at he <;> simp at he
  · rw [he]; rfl
  · rcases he with h | h <;> rw [h] <;> rfl

theorem idx_le_of_mem_segs (L : Ledger) (parsed : List String) :
    ∀ (i : Nat), ∀ e ∈ eventsOf (segs L i parsed), i ≤ Event.idx e := by
  induction parsed with
  | nil => intro i e he; simp [segs, eventsOf, List.enumFrom] at he
  | cons p ps ih =>
    intro i e he
    rw [segs_cons, eventsOf_append] at he
    rcases List.mem_append.mp he with h | h
    · exact Nat.le_of_eq (eventsOf_loopBody_idx L i p e h).symm
    · exact Nat.le_trans (Nat.le_succ i) (ih (i + 1) e h)

theorem pairwise_idx_segs (L : Ledger) (parsed : List String) :
    ∀ i : Nat,
      List.Pairwise (fun e₁ e₂ => Event.idx e₁ ≤ Event.idx e₂) (eventsOf (segs L i parsed)) := by
  induction parsed with
  | nil => intro i; simp [segs, eventsOf, List.enumFrom]
  | cons p ps ih =>
    intro i
    rw [segs_cons, eventsOf_append, List.pairwise_append]
    refine ⟨?_, ih (i + 1), ?_⟩
    · apply List.pairwise_of_forall_mem_list
      intro a ha b hb
      rw [eventsOf_loopBody_idx L i p a ha, eventsOf_loopBody_idx L i p b hb]
    · intro a ha b hb
      have h1 := eventsOf_loopBody_idx L i p a ha
      have h2 := idx_le_of_mem_segs L ps (i + 1) b hb
      omega

theorem renderResult_ne_empty (i : Nat) (ata : String) (res : InspectionResult) :
    ∀ l ∈ renderResult i ata res, l ≠ "" := by
  intro l hl
  cases res with
  | found r =>
    simp [renderResult, foundLines] at hl
    rcases hl with h | h | h | h <;> rw [h]
    · simp only [foundStatusLine]
      exact append_ne_empty_left _ _ (by decide)
    · exact append_ne_empty_left _ _ (by decide)
    · exact append_ne_empty_left _ _ (by decide)
    · exact append_ne_empty_left _ _ (by decide)
  | notFound =>
    simp [renderResult] at hl
    rw [hl]
    simp only [notFoundLine]
    exact append_ne_empty_left _ _ (by decide)
  | error e =>
    simp [renderResult] at hl
    rw [hl]
    simp only [errorLine]
    exact append_ne_empty_left _ _ (by decide)

theorem notFoundLine_contains_ata (i : Nat) (ata : String) :
    containsStr (notFoundLine i ata) ata :=
  ⟨"❌ ATA " ++ (toString (i + 1) ++ ": "), " - не найден", by
    simp [notFoundLine, String.append_assoc]⟩

theorem notFoundLine_contains_marker (i : Nat) (ata : String) :
    containsStr (notFoundLine i ata) " - не найден" :=
  ⟨"❌ ATA " ++ (toString (i + 1) ++ (": " ++ ata)), "", by
    simp [notFoundLine, String.append_assoc, String.append_empty]⟩

theorem errorLine_contains_ata (i : Nat) (ata msg : String) :
    containsStr (errorLine i ata msg) ata :=
  ⟨"⚠️ ATA " ++ (toString (i + 1) ++ ": "), " - ошибка: " ++ msg, by
    simp [errorLine, String.append_assoc]⟩

theorem errorLine_contains_msg (i : Nat) (ata msg : String) :
    containsStr (errorLine i ata msg) msg :=
  ⟨"⚠️ ATA " ++ (toString (i + 1) ++ (": " ++ (ata ++ " - ошибка: "))), "", by
    simp [errorLine, String.append_assoc, String.append_empty]⟩

theorem notFoundLine_no_tags (i : Nat) (ata : String) :
    hasTag mintTag (notFoundLine i ata) = false ∧
    hasTag balanceTag (notFoundLine i ata) = false ∧
    hasTag ownerTag (notFoundLine i ata) = false := by
  refine ⟨?_, ?_, ?_⟩ <;>
  · simp only [notFoundLine]
    exact hasTag_false_of_take_ne _ "❌ ATA " _ 1 (by decide) (by decide) (by decide)

theorem errorLine_no_tags (i : Nat) (ata msg : String) :
    hasTag mintTag (errorLine i ata msg) = false ∧
    hasTag balanceTag (errorLine i ata msg) = false ∧
    hasTag ownerTag (errorLine i ata msg) = false := by
  refine ⟨?_, ?_, ?_⟩ <;>
  · simp only [errorLine]
    exact hasTag_false_of_take_ne _ "⚠️ ATA " _ 1 (by decide) (by decide) (by decide)

theorem foundStatusLine_no_tags (i : Nat) (ata : String) :
    hasTag mintTag (foundStatusLine i ata) = false ∧
    hasTag balanceTag (foundStatusLine i ata) = false ∧
    hasTag ownerTag (foundStatusLine i ata) = false := by
  refine ⟨?_, ?_, ?_⟩ <;>
  · simp only [foundStatusLine]
    exact hasTag_false_of_take_ne _ "✅ ATA " _ 1 (by decide) (by decide) (by decide)

/-- A ledger whose PublicKey constructor always throws. -/
def badParseLedger : Ledger :=
  ⟨fun _ => Except.error "Invalid public key input",
   fun _ => Except.ok false,
   fun _ => Except.error "unused"⟩

/-- A ledger whose PublicKey constructor throws exactly on the string "b"
and reports every other address absent. -/
def parseFailBLedger : Ledger :=
  ⟨fun s => if s = "b" then Except.error "Non-base58 character" else Except.ok s,
   fun _ => Except.ok false,
   fun _ => Except.error "unused"⟩

/-- C1, counterexample: the claim says the process exits non-zero when a
fault occurs outside the per-identifier scope.  With a malformed
identifier list the fault does occur outside the per-identifier scope and
reaches the top-level catch, which prints it on stderr — yet the exit
code is 0, refuting the claimed equivalence. -/
theorem c1_counterexample :
    (runProcess badParseLedger ["!"]).stderr = ["Invalid public key input"] ∧
    (runProcess badParseLedger ["!"]).exitCode = 0 := by
  constructor <;> rfl

/-- C1, amended: the process exits zero in every run.  A fault outside
the per-identifier scope rejects the checkATA() promise; the rejection is
handled by the top-level catch, which passes it to console.error, so even
such a run exits zero, as does every run whose identifiers all produced
Error results. -/
theorem c1_exit_always_zero (L : Ledger) (addrs : List String) :
    (runProcess L addrs).exitCode = 0 := by
  rcases h : checkATA L addrs with ⟨tr, r⟩
  cases r <;> simp [runProcess, h]

/-- C2, counterexample: with the identifier list ["a", "b", "c"] and a
ledger whose PublicKey constructor throws on "b", the parsing fault on
identifier 2 is not converted into an Error result and aborts the loop:
identifier 3 is never queried, no block is printed for identifiers 2 and
3, and the run ends with the escaped fault. -/
theorem c2_counterexample :
    eventsOf (checkATA parseFailBLedger ["a", "b", "c"]).1 = [Event.info 0] ∧
    (checkATA parseFailBLedger ["a", "b", "c"]).2 = Except.error "Non-base58 character" ∧
    stdoutOf (checkATA parseFailBLedger ["a", "b", "c"]).1 =
      [headerLine, notFoundLine 0 "a", ""] := by
  refine ⟨?_, ?_, ?_⟩ <;> rfl

/-- C2, amended: a fault raised inside the per-identifier try block —
during the existence query or the decode query — is caught, converted
into an Error result rendered as the error line, and never prevents the
next identifier from being processed: the trace and outcome of the rest
of the list are appended unchanged.  A fault during identifier parsing is
outside the try block and aborts the loop instead. -/
theorem c2_query_faults_contained (L : Ledger) (i : Nat) (a ata : String)
    (rest : List String)
    (hp : L.parseKey a = Except.ok ata)
    (hf : (∃ e, L.getAccountInfo ata = Except.error e) ∨
          (L.getAccountInfo ata = Except.ok true ∧ ∃ e, L.getAccount ata = Except.error e)) :
    (∃ e, resultOf L ata = InspectionResult.error e ∧
       stdoutOf (loopBody L i ata) = [errorLine i ata e, ""]) ∧
    runFrom L i (a :: rest) =
      (loopBody L i ata ++ (runFrom L (i + 1) rest).1, (runFrom L (i + 1) rest).2) := by
  constructor
  · rcases hf with ⟨e, he⟩ | ⟨ht, e, he⟩
    · refine ⟨e, by simp [resultOf, he], ?_⟩
      rw [stdoutOf_loopBody]
      simp [resultOf, renderResult, he]
    · refine ⟨e, by simp [resultOf, ht, he], ?_⟩
      rw [stdoutOf_loopBody]
      simp [resultOf, renderResult, ht, he]
  · simp [runFrom, hp]

/-- A ledger whose existence query always throws. -/
def infoFailLedger : Ledger :=
  ⟨fun s => Except.ok s,
   fun _ => Except.error "Network request failed",
   fun _ => Except.error "unused"⟩

/-- Witness for the amended C2 at a concrete ledger and list. -/
theorem c2_query_faults_contained_witness :
    (∃ e, resultOf infoFailLedger "a" = InspectionResult.error e ∧
       stdoutOf (loopBody infoFailLedger 0 "a") = [errorLine 0 "a" e, ""]) ∧
    runFrom infoFailLedger 0 ["a", "b"] =
      (loopBody infoFailLedger 0 "a" ++ (runFrom infoFailLedger 1 ["b"]).1,
       (runFrom infoFailLedger 1 ["b"]).2) :=
  c2_query_faults_contained infoFailLedger 0 "a" "a" ["b"] rfl
    (Or.inl ⟨"Network request failed", rfl⟩)

/-- C3: for every list of well-formed identifiers (each one parses) and
every pattern of ledger answers, the loop finishes normally and the
console output is the banner followed by exactly one rendered
InspectionResult block (plus separator) per identifier, in input order;
each block depends only on its own identifier's ledger answers. -/
theorem c3_one_result_per_identifier (L : Ledger) (parse : String → String)
    (addrs : List String)
    (hp : ∀ a ∈ addrs, L.parseKey a = Except.ok (parse a)) :
    (checkATA L addrs).2 = Except.ok () ∧
    stdoutOf (checkATA L addrs).1 =
      headerLine ::
        ((List.enumFrom 0 (addrs.map parse)).map
          fun jp => renderResult jp.1 jp.2 (resultOf L jp.2) ++ [""]).flatten := by
  have h := runFrom_parsed L parse addrs 0 hp
  constructor
  · simp [checkATA, h]
  · simp [checkATA, h, stdoutOf_cons_out, stdoutOf_segs]

/-- A ledger that parses every key and reports every address absent. -/
def allAbsentLedger : Ledger :=
  ⟨fun s => Except.ok s,
   fun _ => Except.ok false,
   fun _ => Except.error "unused"⟩

/-- Witness for C3 at the script's hard-coded address list. -/
theorem c3_witness :
    (checkATA allAbsentLedger ATA_ADDRESSES).2 = Except.ok () ∧
    stdoutOf (checkATA allAbsentLedger ATA_ADDRESSES).1 =
      headerLine ::
        ((List.enumFrom 0 (ATA_ADDRESSES.map id)).map
          fun jp => renderResult jp.1 jp.2 (resultOf allAbsentLedger jp.2) ++ [""]).flatten :=
  c3_one_result_per_identifier allAbsentLedger id ATA_ADDRESSES fun _ _ => rfl

/-- C4: when the ledger reports the account present and the decode
succeeds, the rendered block is exactly the four lines status, mint,
balance, owner; the mint, balance and owner lines each occur exactly once
in the block and carry the decoded record's field verbatim, the balance
line being the decimal rendering of the exact decoded amount. -/
theorem c4_found_block (L : Ledger) (i : Nat) (ata : String) (r : TokenAccountRecord)
    (hinfo : L.getAccountInfo ata = Except.ok true)
    (hdec : L.getAccount ata = Except.ok r) :
    renderResult i ata (resultOf L ata) =
      [foundStatusLine i ata,
       mintTag ++ r.mint,
       balanceTag ++ toString r.amount,
       ownerTag ++ r.owner] ∧
    (renderResult i ata (resultOf L ata)).countP (hasTag mintTag) = 1 ∧
    (renderResult i ata (resultOf L ata)).countP (hasTag balanceTag) = 1 ∧
    (renderResult i ata (resultOf L ata)).countP (hasTag ownerTag) = 1 := by
  have hres : resultOf L ata = InspectionResult.found r := by simp [resultOf, hinfo, hdec]
  rw [hres]
  have hstat := foundStatusLine_no_tags i ata
  have hmb : hasTag mintTag (balanceTag ++ toString r.amount) = false :=
    hasTag_false_of_take_ne mintTag balanceTag _ 4 (by decide) (by decide) (by decide)
  have hmo : hasTag mintTag (ownerTag ++ r.owner) = false :=
    hasTag_false_of_take_ne mintTag ownerTag _ 4 (by decide) (by decide) (by decide)
  have hbm : hasTag balanceTag (mintTag ++ r.mint) = false :=
    hasTag_false_of_take_ne balanceTag mintTag _ 4 (by decide) (by decide) (by decide)
  have hbo : hasTag balanceTag (ownerTag ++ r.owner) = false :=
    hasTag_false_of_take_ne balanceTag ownerTag _ 4 (by decide) (by decide) (by decide)
  have hom : hasTag ownerTag (mintTag ++ r.mint) = false :=
    hasTag_false_of_take_ne ownerTag mintTag _ 4 (by decide) (by decide) (by decide)
  have hob : hasTag ownerTag (balanceTag ++ toString r.amount) = false :=
    hasTag_false_of_take_ne ownerTag balanceTag _ 4 (by decide) (by decide) (by decide)
  refine ⟨by simp [renderResult, foundLines], ?_, ?_, ?_⟩
  · simp [renderResult, foundLines, List.countP_cons, hstat.1, hmb, hmo, hasTag_self_append]
  · simp [renderResult, foundLines, List.countP_cons, hstat.2.1, hbm, hbo, hasTag_self_append]
  · simp [renderResult, foundLines, List.countP_cons, hstat.2.2, hom, hob, hasTag_self_append]

/-- A record used by the concrete witness ledgers. -/
def sampleRecord : TokenAccountRecord :=
  ⟨"So11111111111111111111111111111111111111112", "OwnerWallet1111111111111111111111111111111", 123456789⟩

/-- A ledger that reports every address present and decodable. -/
def allFoundLedger : Ledger :=
  ⟨fun s => Except.ok s,
   fun _ => Except.ok true,
   fun _ => Except.ok sampleRecord⟩

/-- Witness for C4 at a concrete ledger, position and record. -/
theorem c4_witness :
    renderResult 0 "addr" (resultOf allFoundLedger "addr") =
      [foundStatusLine 0 "addr",
       mintTag ++ sampleRecord.mint,
       balanceTag ++ toString sampleRecord.amount,
       ownerTag ++ sampleRecord.owner] ∧
    (renderResult 0 "addr" (resultOf allFoundLedger "addr")).countP (hasTag mintTag) = 1 ∧
    (renderResult 0 "addr" (resultOf allFoundLedger "addr")).countP (hasTag balanceTag) = 1 ∧
    (renderResult 0 "addr" (resultOf allFoundLedger "addr")).countP (hasTag ownerTag) = 1 :=
  c4_found_block allFoundLedger 0 "addr" sampleRecord rfl rfl

/-- C5: when the ledger reports the address absent, the result is
NotFound, the block is the single not-found line, that line contains the
not-found indicator and the identifier itself, and no line of the block
is a mint, balance or owner line. -/
theorem c5_not_found_block (L : Ledger) (i : Nat) (ata : String)
    (h : L.getAccountInfo ata = Except.ok false) :
    resultOf L ata = InspectionResult.notFound ∧
    renderResult i ata (resultOf L ata) = [notFoundLine i ata] ∧
    containsStr (notFoundLine i ata) " - не найден" ∧
    containsStr (notFoundLine i ata) ata ∧
    ∀ l ∈ renderResult i ata (resultOf L ata),
      hasTag mintTag l = false ∧ hasTag balanceTag l = false ∧ hasTag ownerTag l = false := by
  have hres : resultOf L ata = InspectionResult.notFound := by simp [resultOf, h]
  rw [hres]
  refine ⟨rfl, rfl, notFoundLine_contains_marker i ata, notFoundLine_contains_ata i ata, ?_⟩
  intro l hl
  simp [renderResult] at hl
  rw [hl]
  exact notFoundLine_no_tags i ata

/-- Witness for C5 at a concrete ledger and position. -/
theorem c5_witness :
    resultOf allAbsentLedger "addr" = InspectionResult.notFound ∧
    renderResult 2 "addr" (resultOf allAbsentLedger "addr") = [notFoundLine 2 "addr"] ∧
    containsStr (notFoundLine 2 "addr") " - не найден" ∧
    containsStr (notFoundLine 2 "addr") "addr" ∧
    ∀ l ∈ renderResult 2 "addr" (resultOf allAbsentLedger "addr"),
      hasTag mintTag l = false ∧ hasTag balanceTag l = false ∧ hasTag ownerTag l = false :=
  c5_not_found_block allAbsentLedger 2 "addr" rfl

/-- C6: when the ledger reports the address present but the decode query
throws, the result is an Error carrying the fault's message, the block is
the single error line, that line contains the identifier and the fault's
message text verbatim, and no line of the block is a mint, balance or
owner line. -/
theorem c6_decode_error_block (L : Ledger) (i : Nat) (ata e : String)
    (hinfo : L.getAccountInfo ata = Except.ok true)
    (hdec : L.getAccount ata = Except.error e) :
    resultOf L ata = InspectionResult.error e ∧
    renderResult i ata (resultOf L ata) = [errorLine i ata e] ∧
    containsStr (errorLine i ata e) ata ∧
    containsStr (errorLine i ata e) e ∧
    ∀ l ∈ renderResult i ata (resultOf L ata),
      hasTag mintTag l = false ∧ hasTag balanceTag l = false ∧ hasTag ownerTag l = false := by
  have hres : resultOf L ata = InspectionResult.error e := by simp [resultOf, hinfo, hdec]
  rw [hres]
  refine ⟨rfl, rfl, errorLine_contains_ata i ata e, errorLine_contains_msg i ata e, ?_⟩
  intro l hl
  simp [renderResult] at hl
  rw [hl]
  exact errorLine_no_tags i ata e

/-- A ledger that reports every address present and every decode failing. -/
def decodeFailLedger : Ledger :=
  ⟨fun s => Except.ok s,
   fun _ => Except.ok true,
   fun _ => Except.error "TokenAccountNotFoundError"⟩

/-- Witness for C6 at a concrete ledger and position. -/
theorem c6_witness :
    resultOf decodeFailLedger "addr" = InspectionResult.error "TokenAccountNotFoundError" ∧
    renderResult 1 "addr" (resultOf decodeFailLedger "addr") =
      [errorLine 1 "addr" "TokenAccountNotFoundError"] ∧
    containsStr (errorLine 1 "addr" "TokenAccountNotFoundError") "addr" ∧
    containsStr (errorLine 1 "addr" "TokenAccountNotFoundError") "TokenAccountNotFoundError" ∧
    ∀ l ∈ renderResult 1 "addr" (resultOf decodeFailLedger "addr"),
      hasTag mintTag l = false ∧ hasTag balanceTag l = false ∧ hasTag ownerTag l = false :=
  c6_decode_error_block decodeFailLedger 1 "addr" "TokenAccountNotFoundError" rfl rfl

/-- C7: for every list of well-formed identifiers, the console output
decomposes into the banner followed by one rendered block plus exactly
one blank separator line per identifier, the separator coming after the
block and before the next identifier's block in every branch; no rendered
block line is itself blank. -/
theorem c7_blank_separator (L : Ledger) (parse : String → String) (addrs : List String)
    (hp : ∀ a ∈ addrs, L.parseKey a = Except.ok (parse a)) :
    stdoutOf (checkATA L addrs).1 =
      headerLine ::
        ((List.enumFrom 0 (addrs.map parse)).map
          fun jp => renderResult jp.1 jp.2 (resultOf L jp.2) ++ [""]).flatten ∧
    ∀ jp ∈ List.enumFrom 0 (addrs.map parse),
      ∀ l ∈ renderResult jp.1 jp.2 (resultOf L jp.2), l ≠ "" := by
  have h := runFrom_parsed L parse addrs 0 hp
  constructor
  · simp [checkATA, h, stdoutOf_cons_out, stdoutOf_segs]
  · intro jp _ l hl
    exact renderResult_ne_empty jp.1 jp.2 _ l hl

/-- Ledger of the spec's three-identifier scenario: "Found1" present and
decodable, "Missing2" absent, "Broken3" present but failing to decode. -/
def scenarioLedger : Ledger :=
  ⟨fun s => Except.ok s,
   fun s => if s = "Missing2" then Except.ok false else Except.ok true,
   fun s => if s = "Found1" then Except.ok sampleRecord
            else Except.error "TokenAccountNotFoundError"⟩

/-- Witness for C7 at the spec's scenario ledger and list. -/
theorem c7_witness :
    stdoutOf (checkATA scenarioLedger ["Found1", "Missing2", "Broken3"]).1 =
      headerLine ::
        ((List.enumFrom 0 (["Found1", "Missing2", "Broken3"].map id)).map
          fun jp => renderResult jp.1 jp.2 (resultOf scenarioLedger jp.2) ++ [""]).flatten ∧
    ∀ jp ∈ List.enumFrom 0 (["Found1", "Missing2", "Broken3"].map id),
      ∀ l ∈ renderResult jp.1 jp.2 (resultOf scenarioLedger jp.2), l ≠ "" :=
  c7_blank_separator scenarioLedger id ["Found1", "Missing2", "Broken3"] fun _ _ => rfl

/-- C8: execution is strictly sequential: the trace is the banner
followed by the per-identifier segments concatenated in input order, so
every query and every output line of an earlier identifier precedes every
query of a later one; the positions of the queries are monotone along the
trace; and a segment's queries are the existence query alone, or the
existence query followed by the decode query exactly when the existence
query reported the account present. -/
theorem c8_sequential (L : Ledger) (parse : String → String) (addrs : List String)
    (hp : ∀ a ∈ addrs, L.parseKey a = Except.ok (parse a)) :
    (checkATA L addrs).1 = Item.out headerLine :: segs L 0 (addrs.map parse) ∧
    List.Pairwise (fun e₁ e₂ => Event.idx e₁ ≤ Event.idx e₂)
      (eventsOf (checkATA L addrs).1) ∧
    (∀ j ata, eventsOf (loopBody L j ata) =
        if decodeIssued L ata then [Event.info j, Event.decode j] else [Event.info j]) ∧
    (∀ ata, decodeIssued L ata = true ↔ L.getAccountInfo ata = Except.ok true) := by
  have h := runFrom_parsed L parse addrs 0 hp
  have htr : (checkATA L addrs).1 = Item.out headerLine :: segs L 0 (addrs.map parse) := by
    simp [checkATA, h]
  refine ⟨htr, ?_, eventsOf_loopBody L, ?_⟩
  · rw [htr, eventsOf_cons_out]
    exact pairwise_idx_segs L (addrs.map parse) 0
  · intro ata
    unfold decodeIssued
    rcases hh : L.getAccountInfo ata with e | b
    · simp
    · cases b <;> simp

/-- Witness for C8 at the spec's scenario ledger and list. -/
theorem c8_witness :
    (checkATA scenarioLedger ["Found1", "Missing2", "Broken3"]).1 =
      Item.out headerLine ::
        segs scenarioLedger 0 (["Found1", "Missing2", "Broken3"].map id) ∧
    List.Pairwise (fun e₁ e₂ => Event.idx e₁ ≤ Event.idx e₂)
      (eventsOf (checkATA scenarioLedger ["Found1", "Missing2", "Broken3"]).1) ∧
    (∀ j ata, eventsOf (loopBody scenarioLedger j ata) =
        if decodeIssued scenarioLedger ata then [Event.info j, Event.decode j]
        else [Event.info j]) ∧
    (∀ ata, decodeIssued scenarioLedger ata = true ↔
        scenarioLedger.getAccountInfo ata = Except.ok true) :=
  c8_sequential scenarioLedger id ["Found1", "Missing2", "Broken3"] fun _ _ => rfl

/-- C9: when the existence query itself throws for an identifier, the
fault is caught by the same per-identifier catch handler: the block is
the error line carrying the fault's message text, and the loop continues
with the next identifier, whose trace and outcome are appended
unchanged. -/
theorem c9_info_fault_contained (L : Ledger) (i : Nat) (a ata e : String)
    (rest : List String)
    (hp : L.parseKey a = Except.ok ata)
    (hinfo : L.getAccountInfo ata = Except.error e) :
    resultOf L ata = InspectionResult.error e ∧
    stdoutOf (loopBody L i ata) = [errorLine i ata e, ""] ∧
    containsStr (errorLine i ata e) e ∧
    runFrom L i (a :: rest) =
      (loopBody L i ata ++ (runFrom L (i + 1) rest).1, (runFrom L (i + 1) rest).2) := by
  refine ⟨by simp [resultOf, hinfo], ?_, errorLine_contains_msg i ata e, by simp [runFrom, hp]⟩
  rw [stdoutOf_loopBody]
  simp [resultOf, renderResult, hinfo]

/-- Witness for C9 at a concrete ledger and list. -/
theorem c9_witness :
    resultOf infoFailLedger "x" = InspectionResult.error "Network request failed" ∧
    stdoutOf (loopBody infoFailLedger 0 "x") =
      [errorLine 0 "x" "Network request failed", ""] ∧
    containsStr (errorLine 0 "x" "Network request failed") "Network request failed" ∧
    runFrom infoFailLedger 0 ["x", "y"] =
      (loopBody infoFailLedger 0 "x" ++ (runFrom infoFailLedger 1 ["y"]).1,
       (runFrom infoFailLedger 1 ["y"]).2) :=
  c9_info_fault_contained infoFailLedger 0 "x" "x" "Network request failed" ["y"] rfl rfl

/-- C10: when PublicKey construction throws for the identifier following
the prefix `pre`, the throw happens outside the per-identifier try block
and escapes: the trace holds the banner and the blocks of the earlier
identifiers only — no block and no separator for the failing identifier —
later identifiers are never processed, and the escaped rejection is
handled by the top-level catch: it appears on stderr and the exit code is
0. -/
theorem c10_parse_fault_escapes (L : Ledger) (parse : String → String)
    (pre : List String) (a e : String) (post : List String)
    (hpre : ∀ x ∈ pre, L.parseKey x = Except.ok (parse x))
    (ha : L.parseKey a = Except.error e) :
    (checkATA L (pre ++ a :: post)).1 =
      Item.out headerLine :: segs L 0 (pre.map parse) ∧
    (checkATA L (pre ++ a :: post)).2 = Except.error e ∧
    runProcess L (pre ++ a :: post) =
      ⟨headerLine :: stdoutOf (segs L 0 (pre.map parse)), [e], 0⟩ := by
  have h := runFrom_append L parse pre 0 (a :: post) hpre
  have h2 : runFrom L (0 + pre.length) (a :: post) = ([], Except.error e) := by
    simp [runFrom, ha]
  rw [h2] at h
  simp only [List.append_nil] at h
  have htr : checkATA L (pre ++ a :: post) =
      (Item.out headerLine :: segs L 0 (pre.map parse), Except.error e) := by
    simp [checkATA, h]
  refine ⟨by rw [htr], by rw [htr], ?_⟩
  simp [runProcess, htr, stdoutOf_cons_out]

/-- Witness for C10: identifier 2 of three fails to parse; only the first
identifier's block is produced and the fault lands on stderr with exit
code 0. -/
theorem c10_witness :
    (checkATA parseFailBLedger (["a"] ++ "b" :: ["c"])).1 =
      Item.out headerLine :: segs parseFailBLedger 0 (["a"].map id) ∧
    (checkATA parseFailBLedger (["a"] ++ "b" :: ["c"])).2 =
      Except.error "Non-base58 character" ∧
    runProcess parseFailBLedger (["a"] ++ "b" :: ["c"]) =
      ⟨headerLine :: stdoutOf (segs parseFailBLedger 0 (["a"].map id)),
       ["Non-base58 character"], 0⟩ :=
  c10_parse_fault_escapes parseFailBLedger id ["a"] "b" "Non-base58 character" ["c"]
    (fun x hx => by rw [List.mem_singleton.mp hx]; rfl) rfl
